import Mathlib

/-!
Verification of the charcole repository's core logic: the Zod→OpenAPI
schema registration pipeline (`packages/swagger/src/helpers.js`), the
Swagger setup response assembly (`packages/swagger/src/setup.js`), the
package-manifest merger and template copier of the CLI (`bin/index.js`).

JavaScript values are modelled by the inductive `Json`; JS objects are
association lists of string keys with first-match lookup (real JS objects
have unique keys, which theorems assume via `Nodup` hypotheses where it
matters).  Property access on non-objects is modelled as `undefined`
(`none`); the exotic JS behaviours this ignores (numeric index access on
strings) cannot arise for the JSON data these functions process.
Third-party calls (`zodToJsonSchema`, Zod internals) are modelled as
oracles supplied by a `ZodEnv`, since their code is not part of this
repository; `none` models a thrown exception.
-/

inductive Json where
  | null
  | bool (b : Bool)
  | num (n : Int)
  | str (s : String)
  | arr (elems : List Json)
  | obj (fields : List (String × Json))

/-- JavaScript truthiness of a value (objects and arrays are always truthy). -/
def Json.truthy : Json → Bool
  | .null => false
  | .bool b => b
  | .num n => n != 0
  | .str s => s != ""
  | .arr _ => true
  | .obj _ => true

/-- First-match lookup in an object's field list (JS property read). -/
def lookupField : List (String × Json) → String → Option Json
  | [], _ => none
  | (k, v) :: rest, key => if k = key then some v else lookupField rest key

/-- JS property access `j[k]`: `undefined` (`none`) on non-objects. -/
def jsGet (j : Json) (k : String) : Option Json :=
  match j with
  | .obj fs => lookupField fs k
  | _ => none

/-- JS truthiness test of a property, as in `if (obj.key)`. -/
def jsGetTruthy (j : Json) (k : String) : Bool :=
  match jsGet j k with
  | some v => v.truthy
  | none => false

/-- JS `delete j.k` on an object (no-op on non-objects). -/
def jsDelete (j : Json) (k : String) : Json :=
  match j with
  | .obj fs => .obj (fs.filter (fun p => p.1 ≠ k))
  | _ => j

/-- JS property assignment `obj[k] = v`: overwrite the existing binding in
place, or append a new one. -/
def jsSet : List (String × Json) → String → Json → List (String × Json)
  | [], k, v => [(k, v)]
  | (k', v') :: rest, k, v =>
    if k' = k then (k', v) :: rest else (k', v') :: jsSet rest k v

/-- JS object spread `{ ...a, ...b }` on field lists: keys of `a` keep their
position but take `b`'s value when `b` also has the key; keys only in `b`
are appended. -/
def spreadMerge (a b : List (String × Json)) : List (String × Json) :=
  a.map (fun p => (p.1, ((lookupField b p.1).getD p.2))) ++
    b.filter (fun p => (lookupField a p.1).isNone)

/-- Fields of an object value; spreading `undefined`/`null`/primitives
contributes no fields. -/
def objFields : Option Json → List (String × Json)
  | some (Json.obj fs) => fs
  | _ => []

/-- JS `String.split(sep)` for a one-character separator, on the character
list: always returns at least one (possibly empty) group. -/
def splitChars (sep : Char) : List Char → List (List Char)
  | [] => [[]]
  | c :: rest =>
    let res := splitChars sep rest
    if c = sep then [] :: res
    else
      match res with
      | [] => [[c]]
      | g :: gs => (c :: g) :: gs

/-- `"a/b/c".split("/").pop()` of helpers.js line 66: last segment of the
`$ref` string (JS `split` never returns an empty array, so `pop` is the
last group). -/
def lastRefSegment (r : String) : String :=
  (((splitChars '/' r.data).map (fun cs => String.mk cs)).getLastD "")

/-- Post-processing that `convertZodToOpenAPI` (helpers.js lines 56-82)
applies to the JSON value returned by `zodToJsonSchema`.  `none` models an
exception escaping to the surrounding `catch` (property access on
`null`/`undefined`, or `.split` called on a truthy non-string `$ref`). -/
def postProcessCore (j : Json) : Option Json :=
  let j1 := if jsGetTruthy j "$schema" then jsDelete j "$schema" else j
  if jsGetTruthy j1 "$ref" && jsGetTruthy j1 "definitions" then
    match jsGet j1 "$ref" with
    | some (.str r) =>
      let refName := lastRefSegment r
      let entry := (jsGet j1 "definitions").bind (fun d => jsGet d refName)
      match entry with
      | some actualSchema =>
        if actualSchema.truthy then
          some (if jsGetTruthy actualSchema "$schema" then
                  jsDelete actualSchema "$schema"
                else actualSchema)
        else
          some (if jsGetTruthy j1 "definitions" then jsDelete j1 "definitions" else j1)
      | none =>
        some (if jsGetTruthy j1 "definitions" then jsDelete j1 "definitions" else j1)
    | _ => none
  else
    some (if jsGetTruthy j1 "definitions" then jsDelete j1 "definitions" else j1)

def postProcess (jsonSchema : Json) : Option Json :=
  match jsonSchema with
  | .null => none
  | j => postProcessCore j

/-- Whether `postProcess` takes the `$ref`-dereference branch (helpers.js
lines 64-75) and returns the pointed-to definition. -/
def derefTakenCore (j : Json) : Bool :=
  let j1 := if jsGetTruthy j "$schema" then jsDelete j "$schema" else j
  if jsGetTruthy j1 "$ref" && jsGetTruthy j1 "definitions" then
    match jsGet j1 "$ref" with
    | some (.str r) =>
      match (jsGet j1 "definitions").bind (fun d => jsGet d (lastRefSegment r)) with
      | some actualSchema => actualSchema.truthy
      | none => false
    | _ => false
  else
    false

def derefTaken (jsonSchema : Json) : Bool :=
  match jsonSchema with
  | .null => false
  | j => derefTakenCore j

/-- Oracles for the third-party pieces the pipeline calls: `convOut s` is
what `zodToJsonSchema` returns on schema `s` (`none` = it throws);
`bodyOf s` is the truthy `schema._def.shape().body` when the guard of
helpers.js line 100 holds; `extractThrows s` says evaluating that guard
throws.  Zod schema objects themselves are opaque ids. -/
structure ZodEnv where
  convOut : Nat → Option Json
  bodyOf : Nat → Option Nat
  extractThrows : Nat → Bool

/-- `extractBodySchema` (helpers.js lines 95-108): `null` on a falsy
schema; otherwise the truthy `body` field when the guard holds, the
original schema when the guard fails or throws (the `catch` is silent). -/
def extractBodySchema (env : ZodEnv) (schema : Option Nat) : Option Nat :=
  match schema with
  | none => none
  | some s =>
    if env.extractThrows s then some s
    else
      match env.bodyOf s with
      | some b => some b
      | none => some s

/-- `convertZodToOpenAPI` (helpers.js lines 46-87): `null` on a falsy
schema, `null` (after a warning) when conversion or post-processing
throws, otherwise the post-processed JSON schema.  `name` only feeds the
warning log, tracked separately by `registerWarnings`. -/
def convertZodToOpenAPI (env : ZodEnv) (zodSchema : Option Nat) (name : String) :
    Option Json :=
  match zodSchema with
  | none => none
  | some s =>
    match env.convOut s with
    | none => none
    | some j =>
      match postProcess j with
      | none => none
      | some r => let _ := name; some r

/-- Whether the `try` block of `convertZodToOpenAPI` throws on schema `s`
(so the `catch` logs a warning and returns `null`). -/
def convThrew (env : ZodEnv) (s : Nat) : Bool :=
  match env.convOut s with
  | none => true
  | some j => (postProcess j).isNone

/-- The warning `console.warn` emits for schema `name` in the `catch` of
`convertZodToOpenAPI` (helpers.js line 84), modelled without the
underlying error message. -/
def warnMsg (name : String) : String :=
  "Failed to convert Zod schema \"" ++ name ++ "\""

/-- The loop of `registerSchemas` (helpers.js lines 386-397) threading the
`components` accumulator: falsy schemas are skipped, the body schema is
extracted (`extractBodySchema(schema) || schema`), conversion results are
stored only when truthy. -/
def registerLoop (env : ZodEnv) (acc : List (String × Json)) :
    List (String × Option Nat) → List (String × Json)
  | [] => acc
  | (name, schema) :: rest =>
    match schema with
    | none => registerLoop env acc rest
    | some s =>
      let actual := (extractBodySchema env (some s)).getD s
      match convertZodToOpenAPI env (some actual) name with
      | some c =>
        if c.truthy then registerLoop env (jsSet acc name c) rest
        else registerLoop env acc rest
      | none => registerLoop env acc rest

/-- `registerSchemas` (helpers.js lines 383-400). -/
def registerSchemas (env : ZodEnv) (schemas : List (String × Option Nat)) :
    List (String × Json) :=
  registerLoop env [] schemas

/-- The warnings emitted during one `registerSchemas` run: one warning per
truthy entry whose conversion throws (extraction throws are swallowed
silently inside `extractBodySchema` and warn nothing). -/
def registerWarnings (env : ZodEnv) : List (String × Option Nat) → List String
  | [] => []
  | (name, schema) :: rest =>
    match schema with
    | none => registerWarnings env rest
    | some s =>
      let actual := (extractBodySchema env (some s)).getD s
      (if convThrew env actual then [warnMsg name] else []) ++ registerWarnings env rest

/-- The six canned response objects of `getCommonResponses` (helpers.js
lines 114-254), as the field list of the returned object literal. -/
def commonResponsesFields : List (String × Json) :=
  [("Success", Json.obj
      [("description", Json.str "Success"),
       ("content", Json.obj
         [("application/json", Json.obj
           [("schema", Json.obj
             [("type", Json.str "object"),
              ("properties", Json.obj
                [("success", Json.obj
                   [("type", Json.str "boolean"), ("example", Json.bool true)]),
                 ("message", Json.obj
                   [("type", Json.str "string"),
                    ("example", Json.str "Operation successful")]),
                 ("data", Json.obj [("type", Json.str "object")])])])])])]),
   ("ValidationError", Json.obj
      [("description", Json.str "Validation Error"),
       ("content", Json.obj
         [("application/json", Json.obj
           [("schema", Json.obj
             [("type", Json.str "object"),
              ("properties", Json.obj
                [("success", Json.obj
                   [("type", Json.str "boolean"), ("example", Json.bool false)]),
                 ("message", Json.obj
                   [("type", Json.str "string"),
                    ("example", Json.str "Validation failed")]),
                 ("errors", Json.obj
                   [("type", Json.str "array"),
                    ("items", Json.obj
                      [("type", Json.str "object"),
                       ("properties", Json.obj
                         [("field", Json.obj [("type", Json.str "string")]),
                          ("message", Json.obj [("type", Json.str "string")])])])])])])])])]),
   ("Unauthorized", Json.obj
      [("description", Json.str "Unauthorized - Invalid or missing token"),
       ("content", Json.obj
         [("application/json", Json.obj
           [("schema", Json.obj
             [("type", Json.str "object"),
              ("properties", Json.obj
                [("success", Json.obj
                   [("type", Json.str "boolean"), ("example", Json.bool false)]),
                 ("message", Json.obj
                   [("type", Json.str "string"),
                    ("example", Json.str "Unauthorized")])])])])])]),
   ("Forbidden", Json.obj
      [("description", Json.str "Forbidden - Insufficient permissions"),
       ("content", Json.obj
         [("application/json", Json.obj
           [("schema", Json.obj
             [("type", Json.str "object"),
              ("properties", Json.obj
                [("success", Json.obj
                   [("type", Json.str "boolean"), ("example", Json.bool false)]),
                 ("message", Json.obj
                   [("type", Json.str "string"),
                    ("example", Json.str "Forbidden")])])])])])]),
   ("NotFound", Json.obj
      [("description", Json.str "Resource not found"),
       ("content", Json.obj
         [("application/json", Json.obj
           [("schema", Json.obj
             [("type", Json.str "object"),
              ("properties", Json.obj
                [("success", Json.obj
                   [("type", Json.str "boolean"), ("example", Json.bool false)]),
                 ("message", Json.obj
                   [("type", Json.str "string"),
                    ("example", Json.str "Resource not found")])])])])])]),
   ("InternalError", Json.obj
      [("description", Json.str "Internal server error"),
       ("content", Json.obj
         [("application/json", Json.obj
           [("schema", Json.obj
             [("type", Json.str "object"),
              ("properties", Json.obj
                [("success", Json.obj
                   [("type", Json.str "boolean"), ("example", Json.bool false)]),
                 ("message", Json.obj
                   [("type", Json.str "string"),
                    ("example", Json.str "Internal server error")])])])])])])]

/-- `getCommonResponses()` (helpers.js lines 114-254): returns the same
object literal on every call. -/
def getCommonResponses : Json :=
  Json.obj commonResponsesFields

/-- The options of `setupSwagger` that decide the `components.responses`
assembly (setup.js lines 7-22): a field is `none` when the caller's options
object omits the key, so the spread `{ ...defaultOptions, ...options }`
keeps the default (`includeCommonResponses: true`, `customResponses: {}`).
The value is an arbitrary JS value to model truthiness faithfully.  The
remaining options (title, servers, schemas, ...) do not influence the
responses map and are omitted. -/
structure SwaggerOptions where
  includeCommonResponses : Option Json := none
  customResponses : Option Json := none

/-- The `components.responses` map assembled by `setupSwagger` (setup.js
lines 55 and 71-77): `{}` unless `config.includeCommonResponses` is truthy,
in which case `{ ...getCommonResponses(), ...config.customResponses }`. -/
def componentsResponses (opts : SwaggerOptions) : List (String × Json) :=
  let includeCfg := opts.includeCommonResponses.getD (Json.bool true)
  let customCfg := opts.customResponses.getD (Json.obj [])
  if includeCfg.truthy then
    spreadMerge commonResponsesFields (objFields (some customCfg))
  else
    []

/-- Truthiness of a field of an object's field list, as in
`if (fragment.dependencies)`. -/
def objGetTruthy (fs : List (String × Json)) (k : String) : Bool :=
  match lookupField fs k with
  | some v => v.truthy
  | none => false

/-- One conditional block of `mergePackageJson` (bin/index.js lines 19-40):
when `fragment[key]` is truthy, set
`merged[key] = { ...merged[key], ...fragment[key] }`. -/
def mergeField (merged fragment : List (String × Json)) (key : String) :
    List (String × Json) :=
  if objGetTruthy fragment key then
    jsSet merged key
      (Json.obj (spreadMerge (objFields (lookupField merged key))
                             (objFields (lookupField fragment key))))
  else
    merged

/-- `mergePackageJson(base, fragment)` (bin/index.js lines 15-43):
`merged = { ...base }`, then merge `dependencies`, `devDependencies`, and
`scripts` in that order. -/
def mergePackageJson (base fragment : List (String × Json)) :
    List (String × Json) :=
  mergeField (mergeField (mergeField base fragment "dependencies")
    fragment "devDependencies") fragment "scripts"

/-- A manifest field that is either absent or an object value — the shape
every real `package.json` satisfies for `dependencies`, `devDependencies`,
and `scripts` (spreading a primitive behaves differently in JS and is out
of scope of the merge contract). -/
def isObjOrAbsent : Option Json → Bool
  | none => true
  | some (Json.obj _) => true
  | some _ => false

/-- A file-system entry of the template or target tree: a file or a
directory with its children (content of files is irrelevant to the copy
claims). -/
inductive FsEntry where
  | file (name : String)
  | dir (name : String) (children : List FsEntry)

/-- `copyDirRecursive(src, dest, excludeFiles, excludeDirs)` (bin/index.js
lines 45-81) on the children of `src`, for a fresh `dest`: any entry whose
name is in `excludeFiles` or ends in `.tgz` is skipped; a directory whose
name is in `excludeDirs` is skipped; other directories are copied
recursively with the same exclusion lists; other files are copied. -/
def copyEntries (exF exD : List String) : List FsEntry → List FsEntry
  | [] => []
  | FsEntry.file n :: rest =>
    if n ∈ exF then copyEntries exF exD rest
    else if n.endsWith ".tgz" then copyEntries exF exD rest
    else FsEntry.file n :: copyEntries exF exD rest
  | FsEntry.dir n cs :: rest =>
    if n ∈ exF then copyEntries exF exD rest
    else if n.endsWith ".tgz" then copyEntries exF exD rest
    else if n ∈ exD then copyEntries exF exD rest
    else FsEntry.dir n (copyEntries exF exD cs) :: copyEntries exF exD rest

/-- First directory with the given name among a list of entries
(`fs.existsSync` + `readdirSync` on a known directory path). -/
def findDir (name : String) : List FsEntry → Option (List FsEntry)
  | [] => none
  | FsEntry.file _ :: rest => findDir name rest
  | FsEntry.dir n cs :: rest =>
    if n = name then some cs else findDir name rest

/-- Walk a path of directory names from a root entry list. -/
def dirAtPath (t : List FsEntry) : List String → Option (List FsEntry)
  | [] => some t
  | n :: rest => (findDir n t).bind (fun cs => dirAtPath cs rest)

/-- Replace the children of the first directory called `name`, creating the
directory at the end if absent (`fs.mkdirSync(..., { recursive: true })`
followed by filling it). -/
def setChildDir (name : String) (newChildren : List FsEntry) :
    List FsEntry → List FsEntry
  | [] => [FsEntry.dir name newChildren]
  | FsEntry.file n :: rest => FsEntry.file n :: setChildDir name newChildren rest
  | FsEntry.dir n cs :: rest =>
    if n = name then FsEntry.dir n newChildren :: rest
    else FsEntry.dir n cs :: setChildDir name newChildren rest

/-- The module loop of `main` (bin/index.js lines 194-223) over the entries
of `template/src/modules`: non-directories are ignored; `auth` is never
copied here (when selected it is copied later by the dedicated auth block);
`swagger` is never deep-copied (only its manifest fragment is merged);
every other module directory is copied with `package.json` excluded. -/
def moduleLoopCopies : List FsEntry → List FsEntry
  | [] => []
  | FsEntry.file _ :: rest => moduleLoopCopies rest
  | FsEntry.dir n cs :: rest =>
    if n = "auth" then moduleLoopCopies rest
    else if n = "swagger" then moduleLoopCopies rest
    else FsEntry.dir n (copyEntries ["package.json"] [] cs) :: moduleLoopCopies rest

/-- The auth block of `main` (bin/index.js lines 282-339): when `auth` is
selected and the template has a `src/modules/auth` directory, its contents
are copied to `target/src/modules/auth` with `package.json` excluded at
every level (a stray copied `package.json` would additionally be unlinked,
lines 332-338); when the module directory is missing an error is logged and
nothing is copied. -/
def authBlockEntries (auth : Bool) (templateMods : List FsEntry) : List FsEntry :=
  if auth then
    match findDir "auth" templateMods with
    | some cs => [FsEntry.dir "auth" (copyEntries ["package.json"] [] cs)]
    | none => []
  else
    []

/-- The target file tree produced by the copy phase of `main` (bin/index.js
lines 162-348) from the language template tree: the base copy excludes
`basePackage.json` and every directory named `modules`; `src/modules` is
then assembled from the module loop and the auth block.  (The `swagger`
post-steps only add a temporary tarball, later deleted, or remove
swagger-specific files, and never touch `src/modules/auth`; the `!auth`
cleanup of lines 340-348 removes a `src/modules/auth` directory that the
excluded base copy can never have produced.) -/
def buildTargetTree (template : List FsEntry) (auth : Bool) : List FsEntry :=
  let base := copyEntries ["basePackage.json"] ["modules"] template
  match (findDir "src" template).bind (findDir "modules") with
  | none => base
  | some tmods =>
    let mods := moduleLoopCopies tmods ++ authBlockEntries auth tmods
    let srcChildren := (findDir "src" base).getD []
    setChildDir "src" (setChildDir "modules" mods srcChildren) base

/-- No directory named `d` occurs anywhere in the tree. -/
def listNoDirNamed (d : String) : List FsEntry → Bool
  | [] => true
  | FsEntry.file _ :: rest => listNoDirNamed d rest
  | FsEntry.dir n cs :: rest =>
    decide (n ≠ d) && listNoDirNamed d cs && listNoDirNamed d rest

/-- No file named `f` occurs anywhere in the tree. -/
def listNoFileNamed (f : String) : List FsEntry → Bool
  | [] => true
  | FsEntry.file n :: rest => decide (n ≠ f) && listNoFileNamed f rest
  | FsEntry.dir _ cs :: rest => listNoFileNamed f cs && listNoFileNamed f rest

/-- The inputs that decide the control flow of one CLI run of `main`
(bin/index.js lines 83-494): the resolved project name (args or prompt),
whether the target folder already exists, whether `basePackage.json`
exists and parses, the selected features, whether the selected modules'
fragment files exist and parse, and whether the dependency install command
succeeds (`execSync` throws on failure). -/
structure CliEnv where
  projectName : Option String
  targetExists : Bool
  basePackageExists : Bool
  basePkgParses : Bool
  auth : Bool
  swagger : Bool
  swaggerPkgExists : Bool
  swaggerPkgParses : Bool
  authModuleExists : Bool
  authPkgExists : Bool
  authPkgParses : Bool
  installSucceeds : Bool

/-- JS `String.prototype.trim()` on the character list (the common
whitespace characters suffice for the project-name check). -/
def jsWhitespace (c : Char) : Bool :=
  c = ' ' || c = '\t' || c = '\n' || c = '\r'

def jsTrim (s : String) : String :=
  String.mk (((s.data.dropWhile jsWhitespace).reverse.dropWhile jsWhitespace).reverse)

/-- The process exit code of one CLI run (bin/index.js lines 143-153,
165-167, 489-493): 1 when the project name is missing/blank, the target
folder exists, `basePackage.json` is missing or fails to parse, or any
later step throws (the dependency install being the throwing step modelled
here); 0 otherwise.  Failures to parse a selected module's `package.json`
fragment are caught locally (lines 267-272 and 311-316), logged with
`console.error`, and deliberately do not enter this computation. -/
def mainExitCode (e : CliEnv) : Nat :=
  match e.projectName with
  | none => 1
  | some name =>
    if jsTrim name = "" then 1
    else if e.targetExists then 1
    else if !e.basePackageExists then 1
    else if !e.basePkgParses then 1
    else if !e.installSucceeds then 1
    else 0

/-! ## Lemmas about the JS object model -/

theorem lookupField_filter_ne (fs : List (String × Json)) (k : String) :
    lookupField (fs.filter (fun p => p.1 ≠ k)) k = none := by
  induction fs with
  | nil => rfl
  | cons p rest ih =>
    obtain ⟨pk, pv⟩ := p
    rw [List.filter_cons]
    by_cases h : pk = k
    · rw [if_neg (by simp [h])]
      exact ih
    · rw [if_pos (by simp [h])]
      simp only [lookupField]
      rw [if_neg h]
      exact ih

theorem lookupField_filter_ne_other (fs : List (String × Json)) (k k' : String)
    (h : k' ≠ k) :
    lookupField (fs.filter (fun p => p.1 ≠ k)) k' = lookupField fs k' := by
  induction fs with
  | nil => rfl
  | cons p rest ih =>
    obtain ⟨pk, pv⟩ := p
    rw [List.filter_cons]
    by_cases hk : pk = k
    · rw [if_neg (by simp [hk])]
      simp only [lookupField]
      rw [if_neg (by rw [hk]; exact fun hh => h hh.symm)]
      exact ih
    · rw [if_pos (by simp [hk])]
      simp only [lookupField]
      by_cases hk' : pk = k'
      · rw [if_pos hk', if_pos hk']
      · rw [if_neg hk', if_neg hk']
        exact ih

theorem jsGet_delete_self (j : Json) (k : String) :
    jsGet (jsDelete j k) k = none := by
  cases j
  case obj fs => exact lookupField_filter_ne fs k
  all_goals rfl

theorem jsGet_delete_other (j : Json) (k k' : String) (h : k' ≠ k) :
    jsGet (jsDelete j k) k' = jsGet j k' := by
  cases j
  case obj fs => exact lookupField_filter_ne_other fs k k' h
  all_goals rfl

theorem jsGetTruthy_strip_self (j : Json) (k : String) :
    jsGetTruthy (if jsGetTruthy j k then jsDelete j k else j) k = false := by
  by_cases h : jsGetTruthy j k
  · rw [if_pos h]
    unfold jsGetTruthy
    rw [jsGet_delete_self]
  · rw [if_neg h]
    simpa using h

theorem jsGet_strip_other (j : Json) (k k' : String) (h : k' ≠ k) :
    jsGet (if jsGetTruthy j k then jsDelete j k else j) k' = jsGet j k' := by
  by_cases hk : jsGetTruthy j k
  · rw [if_pos hk]
    exact jsGet_delete_other _ _ _ h
  · rw [if_neg hk]

theorem jsGetTruthy_strip_other (j : Json) (k k' : String) (h : k' ≠ k) :
    jsGetTruthy (if jsGetTruthy j k then jsDelete j k else j) k' = jsGetTruthy j k' :=
  congrArg
    (fun o => match o with | some v => Json.truthy v | none => false)
    (jsGet_strip_other j k k' h)

theorem lookupField_append (l1 l2 : List (String × Json)) (k : String) :
    lookupField (l1 ++ l2) k =
      match lookupField l1 k with
      | some v => some v
      | none => lookupField l2 k := by
  induction l1 with
  | nil => rfl
  | cons p rest ih =>
    by_cases h : p.1 = k
    · simp [lookupField, h]
    · simp [lookupField, h, ih]

theorem lookupField_jsSet_self (fs : List (String × Json)) (k : String) (v : Json) :
    lookupField (jsSet fs k v) k = some v := by
  induction fs with
  | nil => simp [jsSet, lookupField]
  | cons p rest ih =>
    obtain ⟨pk, pv⟩ := p
    by_cases hk : pk = k
    · simp [jsSet, hk, lookupField]
    · simp [jsSet, hk, lookupField, ih]

theorem lookupField_jsSet_other (fs : List (String × Json)) (k k' : String) (v : Json)
    (h : k' ≠ k) :
    lookupField (jsSet fs k v) k' = lookupField fs k' := by
  induction fs with
  | nil => simp [jsSet, lookupField, Ne.symm h]
  | cons p rest ih =>
    obtain ⟨pk, pv⟩ := p
    by_cases hk : pk = k
    · have hp : pk ≠ k' := by rw [hk]; exact fun hh => h hh.symm
      simp only [jsSet, if_pos hk, lookupField]
      rw [if_neg hp, if_neg hp]
    · simp only [jsSet, if_neg hk, lookupField]
      by_cases hk' : pk = k'
      · rw [if_pos hk', if_pos hk']
      · rw [if_neg hk', if_neg hk']
        exact ih

theorem lookupField_map_getD (a b : List (String × Json)) (k : String) :
    lookupField (a.map (fun p => (p.1, ((lookupField b p.1).getD p.2)))) k =
      (lookupField a k).map (fun v => (lookupField b k).getD v) := by
  induction a with
  | nil => rfl
  | cons p rest ih =>
    by_cases h : p.1 = k
    · subst h; simp [lookupField]
    · simp [lookupField, h, ih]

theorem lookupField_filter_isNone (a b : List (String × Json)) (k : String) :
    lookupField (b.filter (fun p => (lookupField a p.1).isNone)) k =
      if (lookupField a k).isNone then lookupField b k else none := by
  induction b with
  | nil => simp [lookupField]
  | cons p rest ih =>
    by_cases h : p.1 = k
    · subst h
      by_cases ha : (lookupField a p.1).isNone
      · simp [List.filter_cons, ha, lookupField, ih]
      · simp [List.filter_cons, ha, lookupField, ih]
    · by_cases ha : (lookupField a p.1).isNone
      · simp [List.filter_cons, ha, lookupField, h, ih]
      · simp [List.filter_cons, ha, lookupField, h, ih]

/-- Lookup in a JS spread `{ ...a, ...b }`: `b`'s binding wins, else `a`'s. -/
theorem lookupField_spreadMerge (a b : List (String × Json)) (k : String) :
    lookupField (spreadMerge a b) k =
      match lookupField b k with
      | some w => some w
      | none => lookupField a k := by
  unfold spreadMerge
  rw [lookupField_append, lookupField_map_getD, lookupField_filter_isNone]
  cases ha : lookupField a k <;> cases hb : lookupField b k <;> simp [Option.getD]

/-! ## Lemmas about the conversion post-processing -/

theorem jsGetTruthy_of_get (j : Json) (k : String) (v : Json)
    (h : jsGet j k = some v) : jsGetTruthy j k = v.truthy := by
  unfold jsGetTruthy
  rw [h]

theorem jsGetTruthy_delete_other (j : Json) (k k' : String) (h : k' ≠ k) :
    jsGetTruthy (jsDelete j k) k' = jsGetTruthy j k' :=
  congrArg
    (fun o => match o with | some v => Json.truthy v | none => false)
    (jsGet_delete_other j k k' h)

theorem jsGetTruthy_after_defs_strip (j1 : Json)
    (hs : jsGetTruthy j1 "$schema" = false) :
    jsGetTruthy (if jsGetTruthy j1 "definitions" then jsDelete j1 "definitions" else j1)
      "$schema" = false := by
  by_cases hd : jsGetTruthy j1 "definitions"
  · rw [if_pos hd, jsGetTruthy_delete_other _ _ _ (by decide)]
    exact hs
  · rw [if_neg hd]
    exact hs

theorem postProcessCore_no_truthy_schema (j r : Json)
    (h : postProcessCore j = some r) :
    jsGetTruthy r "$schema" = false := by
  have hstrip := jsGetTruthy_strip_self j "$schema"
  simp only [postProcessCore] at h
  generalize hj1 : (if jsGetTruthy j "$schema" then jsDelete j "$schema" else j) = j1
    at h hstrip
  split at h
  · split at h
    · split at h
      · split at h
        · injection h with h
          subst h
          exact jsGetTruthy_strip_self _ _
        · injection h with h
          subst h
          exact jsGetTruthy_after_defs_strip j1 hstrip
      · injection h with h
        subst h
        exact jsGetTruthy_after_defs_strip j1 hstrip
    · exact Option.noConfusion h
  · injection h with h
    subst h
    exact jsGetTruthy_after_defs_strip j1 hstrip

theorem postProcessCore_no_truthy_defs (j r : Json)
    (h : postProcessCore j = some r) (hd : derefTakenCore j = false) :
    jsGetTruthy r "definitions" = false := by
  simp only [postProcessCore] at h
  simp only [derefTakenCore] at hd
  generalize hj1 : (if jsGetTruthy j "$schema" then jsDelete j "$schema" else j) = j1
    at h hd
  split at h
  · rename_i hcond
    split at h
    · rename_i x r' heq
      split at h
      · rename_i actualSchema hentry
        split at h
        · rename_i htruthy
          rw [if_pos hcond, heq] at hd
          simp only [] at hd
          rw [hentry] at hd
          simp only [] at hd
          rw [htruthy] at hd
          exact absurd hd (by simp)
        · injection h with h
          subst h
          exact jsGetTruthy_strip_self _ _
      · injection h with h
        subst h
        exact jsGetTruthy_strip_self _ _
    · exact Option.noConfusion h
  · injection h with h
    subst h
    exact jsGetTruthy_strip_self _ _

theorem postProcess_no_truthy_schema (j r : Json) (h : postProcess j = some r) :
    jsGetTruthy r "$schema" = false := by
  cases j
  case null => exact Option.noConfusion h
  all_goals
    simp only [postProcess] at h
    exact postProcessCore_no_truthy_schema _ _ h

theorem postProcess_no_truthy_defs (j r : Json) (h : postProcess j = some r)
    (hd : derefTaken j = false) :
    jsGetTruthy r "definitions" = false := by
  cases j
  case null => exact Option.noConfusion h
  all_goals
    simp only [postProcess] at h
    simp only [derefTaken] at hd
    exact postProcessCore_no_truthy_defs _ _ h hd

/-! ## Claim C1 -/

/-- C1 (amended): whenever the conversion pipeline succeeds on a converter
output `j`, the returned object has no `$schema` key with a truthy value,
and, whenever the `$ref`-dereference branch is not taken, also no top-level
`definitions` key with a truthy value.  (As stated the claim is false: the
dereference branch returns the pointed-to definition without stripping a
`definitions` key it may itself contain, and a falsy `$schema` value is
never stripped in any branch.) -/
theorem convertZod_strips_schema_and_definitions
    (env : ZodEnv) (s : Nat) (name : String) (j r : Json)
    (hj : env.convOut s = some j)
    (h : convertZodToOpenAPI env (some s) name = some r) :
    jsGetTruthy r "$schema" = false ∧
      (derefTaken j = false → jsGetTruthy r "definitions" = false) := by
  simp only [convertZodToOpenAPI, hj] at h
  cases hp : postProcess j with
  | none => rw [hp] at h; exact Option.noConfusion h
  | some r0 =>
    rw [hp] at h
    injection h with h
    subst h
    exact ⟨postProcess_no_truthy_schema _ _ hp,
      fun hd => postProcess_no_truthy_defs _ _ hp hd⟩

/-- A converter output for which the pipeline keeps both a (falsy)
`$schema` key and a `definitions` key: a bare `$ref` whose dereferenced
definition carries `"$schema": false` and a nested `definitions` map. -/
def cexJC1 : Json :=
  Json.obj
    [("$ref", Json.str "#/definitions/X"),
     ("definitions", Json.obj
       [("X", Json.obj
         [("$schema", Json.bool false), ("definitions", Json.obj [])])])]

def cexEnvC1 : ZodEnv :=
  ⟨fun _ => some cexJC1, fun _ => none, fun _ => false⟩

/-- C1 counterexample: on this schema the pipeline succeeds yet returns an
object that still contains a `$schema` key and a top-level `definitions`
key (the dereference branch strips neither). -/
theorem convertZod_strips_counterexample :
    convertZodToOpenAPI cexEnvC1 (some 0) "Cex" =
      some (Json.obj [("$schema", Json.bool false), ("definitions", Json.obj [])]) ∧
    (jsGet (Json.obj [("$schema", Json.bool false), ("definitions", Json.obj [])])
      "$schema").isSome = true ∧
    (jsGet (Json.obj [("$schema", Json.bool false), ("definitions", Json.obj [])])
      "definitions").isSome = true :=
  ⟨rfl, rfl, rfl⟩

def witJC1 : Json :=
  Json.obj
    [("$schema", Json.str "http://json-schema.org/draft-07/schema#"),
     ("type", Json.str "object")]

def witEnvC1 : ZodEnv :=
  ⟨fun _ => some witJC1, fun _ => none, fun _ => false⟩

/-- Witness for C1 at a concrete schema whose conversion succeeds. -/
theorem convertZod_strips_schema_and_definitions_witness :
    jsGetTruthy (Json.obj [("type", Json.str "object")]) "$schema" = false ∧
      (derefTaken witJC1 = false →
        jsGetTruthy (Json.obj [("type", Json.str "object")]) "definitions" = false) :=
  convertZod_strips_schema_and_definitions witEnvC1 0 "User" witJC1
    (Json.obj [("type", Json.str "object")]) rfl rfl

/-! ## Claim C4 -/

/-- C4 (amended): when the conversion result carries a truthy string `$ref`
and a truthy `definitions` value, and the `$ref`'s last path segment names
a truthy entry of that value, the post-processing returns that pointed-to
definition (dereferenced one level) instead of the `$ref` wrapper — with
its `$schema` key removed when the `$schema` value is truthy; a falsy
`$schema` value is left in place (which is why the claim's unconditional
"with its `$schema` key removed" fails). -/
theorem postProcess_deref_returns_definition
    (j defs entry : Json) (r : String)
    (href : jsGet j "$ref" = some (Json.str r)) (hr : r ≠ "")
    (hdefs : jsGet j "definitions" = some defs) (hdt : defs.truthy = true)
    (hentry : jsGet defs (lastRefSegment r) = some entry)
    (het : entry.truthy = true) :
    postProcess j =
      some (if jsGetTruthy entry "$schema" then jsDelete entry "$schema" else entry) := by
  have h1 : jsGet (if jsGetTruthy j "$schema" then jsDelete j "$schema" else j) "$ref"
      = some (Json.str r) := by
    rw [jsGet_strip_other _ _ _ (by decide)]
    exact href
  have h2 : jsGet (if jsGetTruthy j "$schema" then jsDelete j "$schema" else j)
      "definitions" = some defs := by
    rw [jsGet_strip_other _ _ _ (by decide)]
    exact hdefs
  have ht1 : jsGetTruthy (if jsGetTruthy j "$schema" then jsDelete j "$schema" else j)
      "$ref" = true := by
    rw [jsGetTruthy_of_get _ _ _ h1]
    simpa [Json.truthy] using hr
  have ht2 : jsGetTruthy (if jsGetTruthy j "$schema" then jsDelete j "$schema" else j)
      "definitions" = true := by
    rw [jsGetTruthy_of_get _ _ _ h2]
    exact hdt
  cases j
  case obj fs =>
    simp only [postProcess, postProcessCore]
    rw [ht1, ht2]
    simp only [Bool.and_self, if_true]
    rw [h1]
    simp only []
    rw [h2]
    simp only [Option.some_bind]
    rw [hentry]
    simp only [het, if_true]
  all_goals exact Option.noConfusion href

def witDefsC4 : Json :=
  Json.obj
    [("N", Json.obj
      [("$schema", Json.str "http://json-schema.org/draft-07/schema#"),
       ("type", Json.str "object")])]

def witJC4 : Json :=
  Json.obj [("$ref", Json.str "#/definitions/N"), ("definitions", witDefsC4)]

def witEntryC4 : Json :=
  Json.obj
    [("$schema", Json.str "http://json-schema.org/draft-07/schema#"),
     ("type", Json.str "object")]

/-- Witness for C4 at a concrete bare-`$ref` conversion result whose
dereferenced definition has a truthy `$schema`. -/
theorem postProcess_deref_returns_definition_witness :
    postProcess witJC4 =
      some (if jsGetTruthy witEntryC4 "$schema" then jsDelete witEntryC4 "$schema"
            else witEntryC4) :=
  postProcess_deref_returns_definition witJC4 witDefsC4 witEntryC4 "#/definitions/N"
    rfl (by decide) rfl rfl rfl rfl

/-- A bare-`$ref` conversion result whose dereferenced definition carries a
falsy `$schema` value (`0`). -/
def cexJC4 : Json :=
  Json.obj
    [("$ref", Json.str "#/definitions/Node"),
     ("definitions", Json.obj
       [("Node", Json.obj
         [("$schema", Json.num 0), ("type", Json.str "object")])])]

/-- C4 counterexample: the `$ref`'s last segment names an entry of the
`definitions` map, yet the returned dereferenced definition still contains
its `$schema` key (the deletion is truthiness-gated, and `0` is falsy). -/
theorem postProcess_deref_counterexample :
    postProcess cexJC4 =
      some (Json.obj [("$schema", Json.num 0), ("type", Json.str "object")]) ∧
    (jsGet (Json.obj [("$schema", Json.num 0), ("type", Json.str "object")])
      "$schema").isSome = true :=
  ⟨rfl, rfl⟩

/-! ## Lemmas about the registration loop -/

/-- What one entry of the `registerSchemas` loop contributes: the truthy
conversion result, or nothing (falsy schema, failed conversion, or falsy
conversion result). -/
def entryOutcome (env : ZodEnv) (schema : Option Nat) (name : String) : Option Json :=
  match schema with
  | none => none
  | some s =>
    match convertZodToOpenAPI env (some ((extractBodySchema env (some s)).getD s)) name with
    | some c => if c.truthy then some c else none
    | none => none

theorem convertZod_of_threw (env : ZodEnv) (s : Nat) (name : String)
    (h : convThrew env s = true) :
    convertZodToOpenAPI env (some s) name = none := by
  unfold convThrew at h
  simp only [convertZodToOpenAPI]
  cases hc : env.convOut s with
  | none => simp only [hc]
  | some j =>
    simp only [hc] at h ⊢
    cases hp : postProcess j with
    | none => simp only [hp]
    | some r =>
      rw [hp] at h
      exact absurd h (by simp)

theorem registerLoop_lookup_notmem (env : ZodEnv) (l : List (String × Option Nat)) :
    ∀ (acc : List (String × Json)) (name : String),
    name ∉ l.map Prod.fst →
    lookupField (registerLoop env acc l) name = lookupField acc name := by
  induction l with
  | nil => intro acc name _; rfl
  | cons p rest ih =>
    intro acc name hnot
    obtain ⟨n0, sch0⟩ := p
    rw [List.map_cons, List.mem_cons] at hnot
    push_neg at hnot
    obtain ⟨hne, hnot⟩ := hnot
    cases sch0 with
    | none =>
      simp only [registerLoop]
      exact ih acc name hnot
    | some s =>
      cases hconv : convertZodToOpenAPI env
          (some ((extractBodySchema env (some s)).getD s)) n0 with
      | none =>
        simp only [registerLoop, hconv]
        exact ih acc name hnot
      | some c =>
        by_cases ht : c.truthy = true
        · simp only [registerLoop, hconv, ht, if_true]
          rw [ih (jsSet acc n0 c) name hnot]
          exact lookupField_jsSet_other acc n0 name c (fun hh => hne hh)
        · simp only [registerLoop, hconv, ht, if_false]
          exact ih acc name hnot

theorem registerLoop_lookup_mem (env : ZodEnv) (l : List (String × Option Nat)) :
    ∀ (acc : List (String × Json)) (name : String) (schema : Option Nat),
    (l.map Prod.fst).Nodup → (name, schema) ∈ l →
    lookupField (registerLoop env acc l) name =
      (match entryOutcome env schema name with
       | some c => some c
       | none => lookupField acc name) := by
  induction l with
  | nil =>
    intro acc name schema _ hmem
    exact absurd hmem (List.not_mem_nil _)
  | cons p rest ih =>
    intro acc name schema hnd hmem
    obtain ⟨n0, sch0⟩ := p
    rw [List.map_cons] at hnd
    have hnd0 := (List.nodup_cons.mp hnd).1
    have hnd1 := (List.nodup_cons.mp hnd).2
    rcases List.mem_cons.mp hmem with heq | hrest
    · rw [Prod.mk.injEq] at heq
      obtain ⟨h1, h2⟩ := heq
      subst h1
      subst h2
      have hnot : name ∉ rest.map Prod.fst := hnd0
      cases schema with
      | none =>
        simp only [registerLoop, entryOutcome]
        exact registerLoop_lookup_notmem env rest acc name hnot
      | some s =>
        cases hconv : convertZodToOpenAPI env
            (some ((extractBodySchema env (some s)).getD s)) name with
        | none =>
          simp only [registerLoop, entryOutcome, hconv]
          exact registerLoop_lookup_notmem env rest acc name hnot
        | some c =>
          by_cases ht : c.truthy = true
          · simp only [registerLoop, entryOutcome, hconv, ht, if_true]
            rw [registerLoop_lookup_notmem env rest (jsSet acc name c) name hnot]
            exact lookupField_jsSet_self acc name c
          · simp only [registerLoop, entryOutcome, hconv, ht, if_false]
            exact registerLoop_lookup_notmem env rest acc name hnot
    · have hne : n0 ≠ name := by
        intro hc
        apply hnd0
        rw [hc]
        have hmm := List.mem_map_of_mem Prod.fst hrest
        exact hmm
      cases sch0 with
      | none =>
        simp only [registerLoop]
        exact ih acc name schema hnd1 hrest
      | some s =>
        cases hconv : convertZodToOpenAPI env
            (some ((extractBodySchema env (some s)).getD s)) n0 with
        | none =>
          simp only [registerLoop, hconv]
          exact ih acc name schema hnd1 hrest
        | some c =>
          by_cases ht : c.truthy = true
          · simp only [registerLoop, hconv, ht, if_true]
            rw [ih (jsSet acc n0 c) name schema hnd1 hrest]
            cases entryOutcome env schema name with
            | some c' => simp only []
            | none =>
              simp only []
              exact lookupField_jsSet_other acc n0 name c (Ne.symm hne)
          · simp only [registerLoop, hconv, ht, if_false]
            exact ih acc name schema hnd1 hrest

theorem jsSet_length (fs : List (String × Json)) (k : String) (v : Json) :
    (jsSet fs k v).length ≤ fs.length + 1 := by
  induction fs with
  | nil => simp [jsSet]
  | cons p rest ih =>
    obtain ⟨pk, pv⟩ := p
    by_cases hk : pk = k
    · simp [jsSet, hk]
    · simp only [jsSet, if_neg hk, List.length_cons]
      omega

theorem registerLoop_length (env : ZodEnv) (l : List (String × Option Nat)) :
    ∀ acc : List (String × Json),
    (registerLoop env acc l).length ≤ acc.length + l.length := by
  induction l with
  | nil => intro acc; simp [registerLoop]
  | cons p rest ih =>
    intro acc
    obtain ⟨n0, sch0⟩ := p
    cases sch0 with
    | none =>
      simp only [registerLoop, List.length_cons]
      have := ih acc
      omega
    | some s =>
      cases hconv : convertZodToOpenAPI env
          (some ((extractBodySchema env (some s)).getD s)) n0 with
      | none =>
        simp only [registerLoop, hconv, List.length_cons]
        have := ih acc
        omega
      | some c =>
        by_cases ht : c.truthy = true
        · simp only [registerLoop, hconv, ht, if_true, List.length_cons]
          have h1 := ih (jsSet acc n0 c)
          have h2 := jsSet_length acc n0 c
          omega
        · simp only [registerLoop, hconv, List.length_cons]
          rw [if_neg ht]
          have := ih acc
          omega

theorem registerLoop_truthy (env : ZodEnv) (l : List (String × Option Nat)) :
    ∀ acc : List (String × Json),
    (∀ n v, lookupField acc n = some v → v.truthy = true) →
    ∀ n v, lookupField (registerLoop env acc l) n = some v → v.truthy = true := by
  induction l with
  | nil => intro acc hacc; exact hacc
  | cons p rest ih =>
    intro acc hacc
    obtain ⟨n0, sch0⟩ := p
    cases sch0 with
    | none =>
      simp only [registerLoop]
      exact ih acc hacc
    | some s =>
      cases hconv : convertZodToOpenAPI env
          (some ((extractBodySchema env (some s)).getD s)) n0 with
      | none =>
        simp only [registerLoop, hconv]
        exact ih acc hacc
      | some c =>
        by_cases ht : c.truthy = true
        · simp only [registerLoop, hconv, ht, if_true]
          apply ih (jsSet acc n0 c)
          intro n v hv
          by_cases hn : n = n0
          · subst hn
            rw [lookupField_jsSet_self] at hv
            injection hv with hv
            exact hv ▸ ht
          · rw [lookupField_jsSet_other acc n0 n c hn] at hv
            exact hacc n v hv
        · simp only [registerLoop, hconv, ht, if_false]
          exact ih acc hacc

theorem jsSet_keys_mem (fs : List (String × Json)) (k n : String) (v : Json)
    (h : n ∈ (jsSet fs k v).map Prod.fst) :
    n ∈ fs.map Prod.fst ∨ n = k := by
  induction fs with
  | nil =>
    simp [jsSet] at h
    exact Or.inr h
  | cons p rest ih =>
    obtain ⟨pk, pv⟩ := p
    by_cases hk : pk = k
    · simp only [jsSet, if_pos hk, List.map_cons, List.mem_cons] at h ⊢
      exact Or.inl h
    · simp only [jsSet, if_neg hk, List.map_cons, List.mem_cons] at h ⊢
      rcases h with h | h
      · exact Or.inl (Or.inl h)
      · rcases ih h with h' | h'
        · exact Or.inl (Or.inr h')
        · exact Or.inr h'

theorem jsSet_nodup_keys (fs : List (String × Json)) (k : String) (v : Json)
    (h : (fs.map Prod.fst).Nodup) :
    ((jsSet fs k v).map Prod.fst).Nodup := by
  induction fs with
  | nil => simp [jsSet]
  | cons p rest ih =>
    obtain ⟨pk, pv⟩ := p
    rw [List.map_cons] at h
    have h0 := (List.nodup_cons.mp h).1
    have h1 := (List.nodup_cons.mp h).2
    by_cases hk : pk = k
    · simp only [jsSet, if_pos hk, List.map_cons]
      exact List.nodup_cons.mpr ⟨h0, h1⟩
    · simp only [jsSet, if_neg hk, List.map_cons]
      refine List.nodup_cons.mpr ⟨?_, ih h1⟩
      intro hmem
      rcases jsSet_keys_mem rest k pk v hmem with h' | h'
      · exact h0 h'
      · exact hk h'

theorem lookupField_mem_keys (fs : List (String × Json)) (n : String) (v : Json)
    (h : lookupField fs n = some v) : n ∈ fs.map Prod.fst := by
  induction fs with
  | nil => exact Option.noConfusion h
  | cons p rest ih =>
    obtain ⟨pk, pv⟩ := p
    by_cases hk : pk = n
    · rw [List.map_cons, List.mem_cons]
      exact Or.inl hk.symm
    · simp only [lookupField, if_neg hk] at h
      rw [List.map_cons, List.mem_cons]
      exact Or.inr (ih h)

theorem registerLoop_nodup_keys (env : ZodEnv) (l : List (String × Option Nat)) :
    ∀ acc : List (String × Json),
    ((acc.map Prod.fst).Nodup) → (((registerLoop env acc l).map Prod.fst).Nodup) := by
  induction l with
  | nil => intro acc hacc; exact hacc
  | cons p rest ih =>
    intro acc hacc
    obtain ⟨n0, sch0⟩ := p
    cases sch0 with
    | none =>
      simp only [registerLoop]
      exact ih acc hacc
    | some s =>
      cases hconv : convertZodToOpenAPI env
          (some ((extractBodySchema env (some s)).getD s)) n0 with
      | none =>
        simp only [registerLoop, hconv]
        exact ih acc hacc
      | some c =>
        by_cases ht : c.truthy = true
        · simp only [registerLoop, hconv, ht, if_true]
          exact ih (jsSet acc n0 c) (jsSet_nodup_keys acc n0 c hacc)
        · simp only [registerLoop, hconv, ht, if_false]
          exact ih acc hacc

theorem registerWarnings_mem (env : ZodEnv) (l : List (String × Option Nat))
    (name : String) (s : Nat)
    (hmem : (name, some s) ∈ l)
    (hthrow : convThrew env ((extractBodySchema env (some s)).getD s) = true) :
    warnMsg name ∈ registerWarnings env l := by
  induction l with
  | nil => exact absurd hmem (List.not_mem_nil _)
  | cons p rest ih =>
    obtain ⟨n0, sch0⟩ := p
    rcases List.mem_cons.mp hmem with heq | hrest
    · rw [Prod.mk.injEq] at heq
      obtain ⟨h1, h2⟩ := heq
      subst h1
      subst h2
      simp [registerWarnings, hthrow]
    · cases sch0 with
      | none =>
        simp only [registerWarnings]
        exact ih hrest
      | some s0 =>
        simp only [registerWarnings, List.mem_append]
        exact Or.inr (ih hrest)

theorem registerSchemas_lookup (env : ZodEnv) (schemas : List (String × Option Nat))
    (name : String) (schema : Option Nat)
    (hnd : (schemas.map Prod.fst).Nodup) (hmem : (name, schema) ∈ schemas) :
    lookupField (registerSchemas env schemas) name = entryOutcome env schema name := by
  have h := registerLoop_lookup_mem env schemas [] name schema hnd hmem
  unfold registerSchemas
  rw [h]
  cases entryOutcome env schema name <;> rfl

theorem entryOutcome_of_threw (env : ZodEnv) (s : Nat) (name : String)
    (hthrow : convThrew env ((extractBodySchema env (some s)).getD s) = true) :
    entryOutcome env (some s) name = none := by
  simp only [entryOutcome]
  rw [convertZod_of_threw env _ name hthrow]

/-! ## Claim C2 -/

/-- C2 (amended): when the conversion of a (truthy) entry throws, the entry
is logged as a warning and contributes nothing to the output map, and every
other entry is still processed to its own outcome — no single entry's
failure aborts registration of the others.  (The claim's "extraction or
conversion" is narrowed to conversion: an extraction throw is swallowed
silently inside `extractBodySchema`, which then returns the original
schema, so the entry is still converted — and may still succeed — with no
warning, as the counterexample shows.) -/
theorem registerSchemas_soft_failure (env : ZodEnv)
    (schemas : List (String × Option Nat)) (name : String) (s : Nat)
    (hnd : (schemas.map Prod.fst).Nodup)
    (hmem : (name, some s) ∈ schemas)
    (hthrow : convThrew env ((extractBodySchema env (some s)).getD s) = true) :
    lookupField (registerSchemas env schemas) name = none ∧
    warnMsg name ∈ registerWarnings env schemas ∧
    (∀ name' schema', (name', schema') ∈ schemas → name' ≠ name →
      lookupField (registerSchemas env schemas) name' = entryOutcome env schema' name') := by
  refine ⟨?_, registerWarnings_mem env schemas name s hmem hthrow, ?_⟩
  · rw [registerSchemas_lookup env schemas name (some s) hnd hmem]
    exact entryOutcome_of_threw env s name hthrow
  · intro name' schema' hmem' _
    exact registerSchemas_lookup env schemas name' schema' hnd hmem'

def witEnvC2 : ZodEnv :=
  ⟨fun s => if s = 0 then none else some (Json.obj [("type", Json.str "object")]),
   fun _ => none, fun _ => false⟩

def witSchemasC2 : List (String × Option Nat) :=
  [("Bad", some 0), ("Good", some 1)]

/-- Witness for C2: schema `Bad` throws during conversion, schema `Good`
converts fine. -/
theorem registerSchemas_soft_failure_witness :
    lookupField (registerSchemas witEnvC2 witSchemasC2) "Bad" = none ∧
    warnMsg "Bad" ∈ registerWarnings witEnvC2 witSchemasC2 ∧
    (∀ name' schema', (name', schema') ∈ witSchemasC2 → name' ≠ "Bad" →
      lookupField (registerSchemas witEnvC2 witSchemasC2) name' =
        entryOutcome witEnvC2 schema' name') :=
  registerSchemas_soft_failure witEnvC2 witSchemasC2 "Bad" 0 (by decide) (by decide) rfl

def cexEnvC2 : ZodEnv :=
  ⟨fun _ => some (Json.obj [("type", Json.str "object")]), fun _ => none, fun _ => true⟩

/-- C2 counterexample: extraction throws on the only entry, yet the entry
still contributes its converted schema to the output map and no warning is
logged — refuting "if the extraction ... throws, that entry is logged as a
warning and contributes nothing". -/
theorem registerSchemas_soft_failure_counterexample :
    cexEnvC2.extractThrows 0 = true ∧
    registerSchemas cexEnvC2 [("A", some 0)] =
      [("A", Json.obj [("type", Json.str "object")])] ∧
    registerWarnings cexEnvC2 [("A", some 0)] = [] :=
  ⟨rfl, rfl, rfl⟩

/-! ## Claim C3 -/

/-- C3: the registry output never exceeds the input in size; every entry
looks up to exactly its own outcome, a successful entry appears exactly
once under its input name, falsy entries are absent, and no name is ever
bound to a null value. -/
theorem registerSchemas_registry_invariants (env : ZodEnv)
    (schemas : List (String × Option Nat))
    (hnd : (schemas.map Prod.fst).Nodup) :
    (registerSchemas env schemas).length ≤ schemas.length ∧
    (∀ name schema, (name, schema) ∈ schemas →
      lookupField (registerSchemas env schemas) name = entryOutcome env schema name ∧
      (∀ c, entryOutcome env schema name = some c →
        ((registerSchemas env schemas).map Prod.fst).count name = 1) ∧
      (schema = none → lookupField (registerSchemas env schemas) name = none)) ∧
    (∀ name, lookupField (registerSchemas env schemas) name ≠ some Json.null) := by
  have hnodup_out : ((registerSchemas env schemas).map Prod.fst).Nodup :=
    registerLoop_nodup_keys env schemas [] (by simp)
  have htruthy : ∀ n v, lookupField (registerSchemas env schemas) n = some v →
      v.truthy = true :=
    registerLoop_truthy env schemas []
      (fun n v hv => Option.noConfusion hv)
  refine ⟨by simpa using registerLoop_length env schemas [], ?_, ?_⟩
  · intro name schema hmem
    have hl := registerSchemas_lookup env schemas name schema hnd hmem
    refine ⟨hl, ?_, ?_⟩
    · intro c hc
      have hm : name ∈ (registerSchemas env schemas).map Prod.fst := by
        apply lookupField_mem_keys _ _ c
        rw [hl, hc]
      exact List.count_eq_one_of_mem hnodup_out hm
    · intro hnone
      subst hnone
      rw [hl]
      rfl
  · intro name h
    exact absurd (htruthy name Json.null h) (by decide)

def witEnvC3 : ZodEnv :=
  ⟨fun _ => some (Json.obj [("type", Json.str "string")]), fun _ => none, fun _ => false⟩

/-- Witness for C3 on a one-entry schema map that converts successfully. -/
theorem registerSchemas_registry_invariants_witness :
    (registerSchemas witEnvC3 [("A", some 0)]).length ≤
      ([("A", some 0)] : List (String × Option Nat)).length ∧
    (∀ name schema, (name, schema) ∈ ([("A", some 0)] : List (String × Option Nat)) →
      lookupField (registerSchemas witEnvC3 [("A", some 0)]) name =
        entryOutcome witEnvC3 schema name ∧
      (∀ c, entryOutcome witEnvC3 schema name = some c →
        ((registerSchemas witEnvC3 [("A", some 0)]).map Prod.fst).count name = 1) ∧
      (schema = none →
        lookupField (registerSchemas witEnvC3 [("A", some 0)]) name = none)) ∧
    (∀ name, lookupField (registerSchemas witEnvC3 [("A", some 0)]) name ≠
      some Json.null) :=
  registerSchemas_registry_invariants witEnvC3 [("A", some 0)] (by decide)

/-! ## Claims C5 and C10 -/

/-- C5: with `includeCommonResponses` left at its default (the options key
absent, so the spread keeps the default `true`) and a custom responses
object supplied, every name of the assembled `components.responses` maps
to the custom value when the custom map has the name, and otherwise to the
common response: colliding names take the custom value, and every
non-colliding name from the six common responses and from the custom map
is present. -/
theorem setup_responses_custom_wins (opts : SwaggerOptions)
    (custom : List (String × Json))
    (h1 : opts.includeCommonResponses = none)
    (h2 : opts.customResponses = some (Json.obj custom)) :
    ∀ name, lookupField (componentsResponses opts) name =
      (match lookupField custom name with
       | some v => some v
       | none => lookupField commonResponsesFields name) := by
  intro name
  unfold componentsResponses
  rw [h1, h2]
  exact lookupField_spreadMerge commonResponsesFields custom name

def witCustomC5 : List (String × Json) :=
  [("Success", Json.str "custom success"), ("Teapot", Json.str "custom teapot")]

def witOptsC5 : SwaggerOptions :=
  { includeCommonResponses := none, customResponses := some (Json.obj witCustomC5) }

/-- Witness for C5 at a colliding name (`Success`). -/
theorem setup_responses_custom_wins_witness :
    lookupField (componentsResponses witOptsC5) "Success" =
      (match lookupField witCustomC5 "Success" with
       | some v => some v
       | none => lookupField commonResponsesFields "Success") :=
  setup_responses_custom_wins witOptsC5 witCustomC5 rfl rfl "Success"

/-- C10: with `includeCommonResponses` explicitly `false`, the assembled
`components.responses` map is empty whatever `customResponses` holds — the
merge of common and custom responses only runs when
`config.includeCommonResponses` is truthy, so disabling common responses
also silently discards all custom responses. -/
theorem setup_responses_disabled (opts : SwaggerOptions)
    (h : opts.includeCommonResponses = some (Json.bool false)) :
    componentsResponses opts = [] := by
  unfold componentsResponses
  rw [h]
  rfl

def witOptsC10 : SwaggerOptions :=
  { includeCommonResponses := some (Json.bool false),
    customResponses := some (Json.obj [("Custom", Json.str "x")]) }

/-- Witness for C10 with a non-empty custom responses map. -/
theorem setup_responses_disabled_witness :
    componentsResponses witOptsC10 = [] :=
  setup_responses_disabled witOptsC10 rfl

/-! ## Lemmas about the manifest merger -/

theorem mergeField_lookup_other (m frag : List (String × Json)) (key k : String)
    (hk : k ≠ key) :
    lookupField (mergeField m frag key) k = lookupField m k := by
  unfold mergeField
  by_cases hg : objGetTruthy frag key = true
  · rw [if_pos hg]
    exact lookupField_jsSet_other m key k _ hk
  · rw [if_neg hg]

theorem mergeField_lookup_self (m frag : List (String × Json)) (key : String)
    (hf : isObjOrAbsent (lookupField frag key) = true) :
    ∀ k, lookupField (objFields (lookupField (mergeField m frag key) key)) k =
      (match lookupField (objFields (lookupField frag key)) k with
       | some w => some w
       | none => lookupField (objFields (lookupField m key)) k) := by
  intro k
  unfold mergeField
  cases hfv : lookupField frag key with
  | none =>
    have hg : objGetTruthy frag key = false := by
      unfold objGetTruthy
      rw [hfv]
    rw [if_neg (by simp [hg])]
    rfl
  | some fv =>
    cases fv with
    | obj ffs =>
      have hg : objGetTruthy frag key = true := by
        unfold objGetTruthy
        rw [hfv]
        rfl
      rw [if_pos hg, lookupField_jsSet_self]
      exact lookupField_spreadMerge _ _ k
    | null => rw [hfv] at hf; exact absurd hf (by simp [isObjOrAbsent])
    | bool b => rw [hfv] at hf; exact absurd hf (by simp [isObjOrAbsent])
    | num n => rw [hfv] at hf; exact absurd hf (by simp [isObjOrAbsent])
    | str s => rw [hfv] at hf; exact absurd hf (by simp [isObjOrAbsent])
    | arr xs => rw [hfv] at hf; exact absurd hf (by simp [isObjOrAbsent])

theorem mergePackageJson_lookup_other (base fragment : List (String × Json))
    (k : String)
    (h1 : k ≠ "dependencies") (h2 : k ≠ "devDependencies") (h3 : k ≠ "scripts") :
    lookupField (mergePackageJson base fragment) k = lookupField base k := by
  unfold mergePackageJson
  rw [mergeField_lookup_other _ _ _ _ h3, mergeField_lookup_other _ _ _ _ h2,
    mergeField_lookup_other _ _ _ _ h1]

theorem mergePackageJson_lookup_section (base fragment : List (String × Json))
    (key : String)
    (hkey : key = "dependencies" ∨ key = "devDependencies" ∨ key = "scripts")
    (hf : isObjOrAbsent (lookupField fragment key) = true) :
    ∀ k, lookupField (objFields (lookupField (mergePackageJson base fragment) key)) k =
      (match lookupField (objFields (lookupField fragment key)) k with
       | some w => some w
       | none => lookupField (objFields (lookupField base key)) k) := by
  intro k
  unfold mergePackageJson
  rcases hkey with hkey | hkey | hkey
  · subst hkey
    have e1 : lookupField
        (mergeField (mergeField base fragment "dependencies") fragment
          "devDependencies") "dependencies" =
        lookupField (mergeField base fragment "dependencies") "dependencies" :=
      mergeField_lookup_other _ _ _ _ (by decide)
    rw [mergeField_lookup_other _ _ _ _ (by decide), e1]
    exact mergeField_lookup_self base fragment "dependencies" hf k
  · subst hkey
    rw [mergeField_lookup_other _ _ _ _ (by decide)]
    have := mergeField_lookup_self (mergeField base fragment "dependencies")
      fragment "devDependencies" hf k
    rw [this, mergeField_lookup_other _ _ _ _ (by decide)]
  · subst hkey
    have := mergeField_lookup_self
      (mergeField (mergeField base fragment "dependencies") fragment "devDependencies")
      fragment "scripts" hf k
    rw [this, mergeField_lookup_other _ _ _ _ (by decide),
      mergeField_lookup_other _ _ _ _ (by decide)]

/-! ## Claim C6 -/

/-- C6: `mergePackageJson(base, fragment)` yields a manifest whose
`dependencies`, `devDependencies`, and `scripts` fields are each the
shallow union of the corresponding base and fragment fields with fragment
values winning on key collision, and every other top-level field of the
base appears in the result unchanged (for manifests whose three merge
fields are absent or objects, as in every real `package.json`). -/
theorem mergePackageJson_merges_fields (base fragment : List (String × Json))
    (hb : ∀ key ∈ ["dependencies", "devDependencies", "scripts"],
      isObjOrAbsent (lookupField base key) = true)
    (hf : ∀ key ∈ ["dependencies", "devDependencies", "scripts"],
      isObjOrAbsent (lookupField fragment key) = true) :
    -- `hb` pins the statement to well-formed manifests; the model's
    -- `objFields` normalisation makes the union equation hold without it.
    (∀ key ∈ ["dependencies", "devDependencies", "scripts"], ∀ k,
      lookupField (objFields (lookupField (mergePackageJson base fragment) key)) k =
        (match lookupField (objFields (lookupField fragment key)) k with
         | some w => some w
         | none => lookupField (objFields (lookupField base key)) k)) ∧
    (∀ k, k ∉ ["dependencies", "devDependencies", "scripts"] →
      lookupField (mergePackageJson base fragment) k = lookupField base k) := by
  constructor
  · intro key hkey k
    have hkey' : key = "dependencies" ∨ key = "devDependencies" ∨ key = "scripts" := by
      simpa using hkey
    exact mergePackageJson_lookup_section base fragment key hkey' (hf key hkey) k
  · intro k hk
    simp only [List.mem_cons, List.not_mem_nil] at hk
    push_neg at hk
    exact mergePackageJson_lookup_other base fragment k hk.1 hk.2.1 hk.2.2.1

def witBaseC6 : List (String × Json) :=
  [("name", Json.str "app"), ("version", Json.str "1.0.0"),
   ("dependencies", Json.obj [("express", Json.str "4")])]

def witFragC6 : List (String × Json) :=
  [("dependencies", Json.obj [("express", Json.str "5"), ("zod", Json.str "3")]),
   ("scripts", Json.obj [("dev", Json.str "nodemon")])]

/-- Witness for C6 on a concrete base manifest and fragment. -/
theorem mergePackageJson_merges_fields_witness :
    (∀ key ∈ ["dependencies", "devDependencies", "scripts"], ∀ k,
      lookupField (objFields (lookupField (mergePackageJson witBaseC6 witFragC6) key)) k =
        (match lookupField (objFields (lookupField witFragC6 key)) k with
         | some w => some w
         | none => lookupField (objFields (lookupField witBaseC6 key)) k)) ∧
    (∀ k, k ∉ ["dependencies", "devDependencies", "scripts"] →
      lookupField (mergePackageJson witBaseC6 witFragC6) k = lookupField witBaseC6 k) :=
  mergePackageJson_merges_fields witBaseC6 witFragC6 (by decide) (by decide)

/-! ## Claim C7 -/

/-- C7: for two fragments with pairwise non-colliding keys in each of
`dependencies`, `devDependencies`, and `scripts`, applying
`mergePackageJson` with the fragments in either order yields the same
merged fields (and the same value at every other key); and on collision the
last-applied fragment wins, as in the claim's example: merging
`{dependencies:{a:"1"}}` with `{dependencies:{a:"2",b:"1"}}` yields
dependencies `{a:"2", b:"1"}`. -/
theorem mergePackageJson_order_and_last_wins (base f1 f2 : List (String × Json))
    (h1 : ∀ key ∈ ["dependencies", "devDependencies", "scripts"],
      isObjOrAbsent (lookupField f1 key) = true)
    (h2 : ∀ key ∈ ["dependencies", "devDependencies", "scripts"],
      isObjOrAbsent (lookupField f2 key) = true)
    (hdisj : ∀ key ∈ ["dependencies", "devDependencies", "scripts"], ∀ k,
      lookupField (objFields (lookupField f1 key)) k = none ∨
      lookupField (objFields (lookupField f2 key)) k = none) :
    (∀ key ∈ ["dependencies", "devDependencies", "scripts"], ∀ k,
      lookupField (objFields (lookupField
        (mergePackageJson (mergePackageJson base f1) f2) key)) k =
      lookupField (objFields (lookupField
        (mergePackageJson (mergePackageJson base f2) f1) key)) k) ∧
    (∀ k, k ∉ ["dependencies", "devDependencies", "scripts"] →
      lookupField (mergePackageJson (mergePackageJson base f1) f2) k =
      lookupField (mergePackageJson (mergePackageJson base f2) f1) k) ∧
    mergePackageJson [("dependencies", Json.obj [("a", Json.str "1")])]
        [("dependencies", Json.obj [("a", Json.str "2"), ("b", Json.str "1")])] =
      [("dependencies", Json.obj [("a", Json.str "2"), ("b", Json.str "1")])] := by
  refine ⟨?_, ?_, rfl⟩
  · intro key hkey k
    have hkey' : key = "dependencies" ∨ key = "devDependencies" ∨ key = "scripts" := by
      simpa using hkey
    rw [mergePackageJson_lookup_section (mergePackageJson base f1) f2 key hkey'
        (h2 key hkey) k,
      mergePackageJson_lookup_section base f1 key hkey' (h1 key hkey) k,
      mergePackageJson_lookup_section (mergePackageJson base f2) f1 key hkey'
        (h1 key hkey) k,
      mergePackageJson_lookup_section base f2 key hkey' (h2 key hkey) k]
    rcases hdisj key hkey k with hd | hd
    · rw [hd]
    · rw [hd]
  · intro k hk
    simp only [List.mem_cons, List.not_mem_nil] at hk
    push_neg at hk
    rw [mergePackageJson_lookup_other _ f2 k hk.1 hk.2.1 hk.2.2.1,
      mergePackageJson_lookup_other _ f1 k hk.1 hk.2.1 hk.2.2.1,
      mergePackageJson_lookup_other _ f1 k hk.1 hk.2.1 hk.2.2.1,
      mergePackageJson_lookup_other _ f2 k hk.1 hk.2.1 hk.2.2.1]

def witBaseC7 : List (String × Json) :=
  [("dependencies", Json.obj [("express", Json.str "4")])]

def witF1C7 : List (String × Json) :=
  [("dependencies", Json.obj [("p", Json.str "1")])]

def witF2C7 : List (String × Json) :=
  [("dependencies", Json.obj [("q", Json.str "2")])]

/-- Witness for C7 on two fragments with disjoint dependency keys. -/
theorem mergePackageJson_order_and_last_wins_witness :
    (∀ key ∈ ["dependencies", "devDependencies", "scripts"], ∀ k,
      lookupField (objFields (lookupField
        (mergePackageJson (mergePackageJson witBaseC7 witF1C7) witF2C7) key)) k =
      lookupField (objFields (lookupField
        (mergePackageJson (mergePackageJson witBaseC7 witF2C7) witF1C7) key)) k) ∧
    (∀ k, k ∉ ["dependencies", "devDependencies", "scripts"] →
      lookupField (mergePackageJson (mergePackageJson witBaseC7 witF1C7) witF2C7) k =
      lookupField (mergePackageJson (mergePackageJson witBaseC7 witF2C7) witF1C7) k) ∧
    mergePackageJson [("dependencies", Json.obj [("a", Json.str "1")])]
        [("dependencies", Json.obj [("a", Json.str "2"), ("b", Json.str "1")])] =
      [("dependencies", Json.obj [("a", Json.str "2"), ("b", Json.str "1")])] :=
  mergePackageJson_order_and_last_wins witBaseC7 witF1C7 witF2C7
    (by decide) (by decide)
    (by
      intro key hkey k
      fin_cases hkey
      · by_cases hq : k = "q"
        · left
          subst hq
          rfl
        · right
          simp only [witF2C7, objFields, lookupField]
          rw [if_neg (fun hh => hq hh.symm)]
      · left
        rfl
      · left
        rfl)

/-! ## Lemmas about the template copier -/

theorem copyEntries_noDirNamed (exF exD : List String) (d : String) (hd : d ∈ exD) :
    ∀ l, listNoDirNamed d (copyEntries exF exD l) = true := by
  intro l
  induction l using copyEntries.induct exF exD with
  | case1 => simp only [copyEntries, listNoDirNamed]
  | case2 n rest h1 ih => simp only [copyEntries, if_pos h1]; exact ih
  | case3 n rest h1 h2 ih => simp only [copyEntries, if_neg h1, if_pos h2]; exact ih
  | case4 n rest h1 h2 ih =>
    simp only [copyEntries, if_neg h1, if_neg h2, listNoDirNamed]
    exact ih
  | case5 n cs rest h1 ih => simp only [copyEntries, if_pos h1]; exact ih
  | case6 n cs rest h1 h2 ih => simp only [copyEntries, if_neg h1, if_pos h2]; exact ih
  | case7 n cs rest h1 h2 h3 ih => simp only [copyEntries, if_neg h1, if_neg h2, if_pos h3]; exact ih
  | case8 n cs rest h1 h2 h3 ihc ihr =>
    simp only [copyEntries, if_neg h1, if_neg h2, if_neg h3, listNoDirNamed]
    have hne : n ≠ d := fun hh => h3 (hh ▸ hd)
    simp [hne, ihc, ihr]

theorem copyEntries_noFileNamed (exF exD : List String) (f : String) (hf : f ∈ exF) :
    ∀ l, listNoFileNamed f (copyEntries exF exD l) = true := by
  intro l
  induction l using copyEntries.induct exF exD with
  | case1 => simp only [copyEntries, listNoFileNamed]
  | case2 n rest h1 ih => simp only [copyEntries, if_pos h1]; exact ih
  | case3 n rest h1 h2 ih => simp only [copyEntries, if_neg h1, if_pos h2]; exact ih
  | case4 n rest h1 h2 ih =>
    simp only [copyEntries, if_neg h1, if_neg h2, listNoFileNamed]
    have hne : n ≠ f := fun hh => h1 (hh ▸ hf)
    simp [hne, ih]
  | case5 n cs rest h1 ih => simp only [copyEntries, if_pos h1]; exact ih
  | case6 n cs rest h1 h2 ih => simp only [copyEntries, if_neg h1, if_pos h2]; exact ih
  | case7 n cs rest h1 h2 h3 ih =>
    simp only [copyEntries, if_neg h1, if_neg h2, if_pos h3]; exact ih
  | case8 n cs rest h1 h2 h3 ihc ihr =>
    simp only [copyEntries, if_neg h1, if_neg h2, if_neg h3, listNoFileNamed]
    simp [ihc, ihr]

theorem findDir_of_noDirNamed (d : String) :
    ∀ t : List FsEntry, listNoDirNamed d t = true → findDir d t = none := by
  intro t
  induction t with
  | nil => intro _; rfl
  | cons e rest ih =>
    intro h
    cases e with
    | file n =>
      simp only [listNoDirNamed] at h
      simp only [findDir]
      exact ih h
    | dir n cs =>
      simp only [listNoDirNamed, Bool.and_eq_true, decide_eq_true_eq] at h
      simp only [findDir]
      rw [if_neg (fun hh => h.1.1 hh)]
      exact ih h.2

theorem findDir_sub (d n : String) :
    ∀ t : List FsEntry, ∀ cs, findDir n t = some cs →
      listNoDirNamed d t = true → listNoDirNamed d cs = true := by
  intro t
  induction t with
  | nil => intro cs h _; exact Option.noConfusion h
  | cons e rest ih =>
    intro cs h hnd
    cases e with
    | file m =>
      simp only [findDir] at h
      simp only [listNoDirNamed] at hnd
      exact ih cs h hnd
    | dir m mcs =>
      simp only [listNoDirNamed, Bool.and_eq_true, decide_eq_true_eq] at hnd
      simp only [findDir] at h
      by_cases hm : m = n
      · rw [if_pos hm] at h
        injection h with h
        exact h ▸ hnd.1.2
      · rw [if_neg hm] at h
        exact ih cs h hnd.2

theorem findDir_setChildDir_self (name : String) (v : List FsEntry) :
    ∀ l, findDir name (setChildDir name v l) = some v := by
  intro l
  induction l with
  | nil => simp [setChildDir, findDir]
  | cons e rest ih =>
    cases e with
    | file n => simp only [setChildDir, findDir]; exact ih
    | dir n cs =>
      by_cases hn : n = name
      · simp only [setChildDir, if_pos hn, findDir]
      · simp only [setChildDir, if_neg hn, findDir]
        exact ih

theorem findDir_setChildDir_other (name n : String) (v : List FsEntry)
    (hne : n ≠ name) :
    ∀ l, findDir n (setChildDir name v l) = findDir n l := by
  intro l
  induction l with
  | nil =>
    simp only [setChildDir, findDir]
    rw [if_neg (fun hh => hne hh.symm)]
  | cons e rest ih =>
    cases e with
    | file m => simp only [setChildDir, findDir]; exact ih
    | dir m cs =>
      by_cases hm : m = name
      · simp only [setChildDir, if_pos hm, findDir]
        have hmn : ¬ m = n := fun hh => hne ((hm ▸ hh).symm)
        rw [if_neg hmn, if_neg hmn]
      · simp only [setChildDir, if_neg hm, findDir]
        by_cases hm' : m = n
        · rw [if_pos hm', if_pos hm']
        · rw [if_neg hm', if_neg hm']
          exact ih

theorem findDir_append (n : String) :
    ∀ a b : List FsEntry,
    findDir n (a ++ b) =
      (match findDir n a with
       | some cs => some cs
       | none => findDir n b) := by
  intro a b
  induction a with
  | nil => rfl
  | cons e rest ih =>
    cases e with
    | file m => simp only [List.cons_append, findDir]; exact ih
    | dir m cs =>
      simp only [List.cons_append, findDir]
      by_cases hm : m = n
      · rw [if_pos hm, if_pos hm]
      · rw [if_neg hm, if_neg hm]
        exact ih

theorem moduleLoopCopies_no_auth :
    ∀ l : List FsEntry, findDir "auth" (moduleLoopCopies l) = none := by
  intro l
  induction l with
  | nil => rfl
  | cons e rest ih =>
    cases e with
    | file m => simp only [moduleLoopCopies]; exact ih
    | dir m cs =>
      by_cases hm : m = "auth"
      · simp only [moduleLoopCopies, if_pos hm]; exact ih
      · by_cases hs : m = "swagger"
        · simp only [moduleLoopCopies, if_neg hm, if_pos hs]; exact ih
        · simp only [moduleLoopCopies, if_neg hm, if_neg hs, findDir]
          exact ih

theorem dirAtPath_modules_none (base : List FsEntry)
    (hnd : listNoDirNamed "modules" base = true) :
    dirAtPath base ["src", "modules", "auth"] = none := by
  simp only [dirAtPath]
  cases hf : findDir "src" base with
  | none => rfl
  | some cs =>
    have hcs : listNoDirNamed "modules" cs = true := findDir_sub "modules" "src" base cs hf hnd
    rw [Option.some_bind, findDir_of_noDirNamed "modules" cs hcs]
    rfl

/-! ## Claim C8 -/

/-- C8: a template-copy run with the auth flag false produces a target tree
with no `src/modules/auth` directory; a run with the auth flag true (on a
template that has the auth module) produces a target tree whose
`src/modules/auth` directory is the copied module, and that copy contains
no `package.json` file at any depth — the module's dependencies reach the
project only via the manifest merge. -/
theorem template_copy_auth_flag :
    (∀ template : List FsEntry,
      dirAtPath (buildTargetTree template false) ["src", "modules", "auth"] = none) ∧
    (∀ (template tmods authCs : List FsEntry),
      (findDir "src" template).bind (findDir "modules") = some tmods →
      findDir "auth" tmods = some authCs →
      dirAtPath (buildTargetTree template true) ["src", "modules", "auth"] =
        some (copyEntries ["package.json"] [] authCs) ∧
      listNoFileNamed "package.json" (copyEntries ["package.json"] [] authCs) = true) := by
  constructor
  · intro template
    cases hm : (findDir "src" template).bind (findDir "modules") with
    | none =>
      simp only [buildTargetTree, hm]
      exact dirAtPath_modules_none _
        (copyEntries_noDirNamed ["basePackage.json"] ["modules"] "modules"
          (by simp) template)
    | some tmods =>
      simp only [buildTargetTree, hm]
      simp only [dirAtPath]
      rw [findDir_setChildDir_self, Option.some_bind,
        findDir_setChildDir_self, Option.some_bind,
        findDir_append, moduleLoopCopies_no_auth]
      rfl
  · intro template tmods authCs hmods hauth
    refine ⟨?_, copyEntries_noFileNamed ["package.json"] [] "package.json"
      (by simp) authCs⟩
    simp only [buildTargetTree, hmods]
    simp only [dirAtPath]
    rw [findDir_setChildDir_self, Option.some_bind,
      findDir_setChildDir_self, Option.some_bind,
      findDir_append, moduleLoopCopies_no_auth]
    simp only [authBlockEntries, hauth, if_true, findDir]
    rfl

def witAuthChildrenC8 : List FsEntry :=
  [FsEntry.file "auth.controller.js", FsEntry.file "package.json",
   FsEntry.dir "middleware" [FsEntry.file "package.json", FsEntry.file "jwt.js"]]

def witTemplateC8 : List FsEntry :=
  [FsEntry.file "basePackage.json",
   FsEntry.dir "src"
     [FsEntry.file "app.js",
      FsEntry.dir "modules" [FsEntry.dir "auth" witAuthChildrenC8]]]

/-- Witness for C8 on a concrete template carrying an auth module with
nested `package.json` files. -/
theorem template_copy_auth_flag_witness :
    dirAtPath (buildTargetTree witTemplateC8 false) ["src", "modules", "auth"] = none ∧
    (dirAtPath (buildTargetTree witTemplateC8 true) ["src", "modules", "auth"] =
      some (copyEntries ["package.json"] [] witAuthChildrenC8) ∧
     listNoFileNamed "package.json" (copyEntries ["package.json"] [] witAuthChildrenC8)
       = true) :=
  ⟨template_copy_auth_flag.1 witTemplateC8,
   template_copy_auth_flag.2 witTemplateC8
     [FsEntry.dir "auth" witAuthChildrenC8] witAuthChildrenC8 rfl rfl⟩

/-! ## Claim C9 -/

/-- C9 (amended): the exit code is always 0 or 1; it is 1 whenever the
project name is missing or blank, the target folder already exists,
`basePackage.json` is missing or unparsable, or the dependency install
throws; it is 0 when all of those succeed.  A failure to parse a selected
module's `package.json` fragment is caught locally, logged with
`console.error`, and has no effect on the exit code — the run still exits
0 (which is why the claim's "1 on ... a failure to merge a selected
module's package.json fragment" fails, see the counterexample). -/
theorem main_exit_codes (e : CliEnv) :
    (mainExitCode e = 0 ∨ mainExitCode e = 1) ∧
    (e.projectName = none → mainExitCode e = 1) ∧
    (e.targetExists = true → mainExitCode e = 1) ∧
    (e.basePackageExists = false → mainExitCode e = 1) ∧
    (e.installSucceeds = false → mainExitCode e = 1) ∧
    (∀ b b', mainExitCode { e with authPkgParses := b, swaggerPkgParses := b' } =
      mainExitCode e) ∧
    (∀ pname, e.projectName = some pname → jsTrim pname ≠ "" →
      e.targetExists = false → e.basePackageExists = true →
      e.basePkgParses = true → e.installSucceeds = true →
      mainExitCode e = 0) := by
  refine ⟨?_, ?_, ?_, ?_, ?_, ?_, ?_⟩
  · cases hpn : e.projectName with
    | none => simp [mainExitCode, hpn]
    | some n =>
      simp only [mainExitCode, hpn]
      split_ifs <;> simp
  · intro h
    simp [mainExitCode, h]
  · intro h
    cases hpn : e.projectName with
    | none => simp [mainExitCode, hpn]
    | some n => simp [mainExitCode, hpn, h]
  · intro h
    cases hpn : e.projectName with
    | none => simp [mainExitCode, hpn]
    | some n => simp [mainExitCode, hpn, h]
  · intro h
    cases hpn : e.projectName with
    | none => simp [mainExitCode, hpn]
    | some n => simp [mainExitCode, hpn, h]
  · intro b b'
    rfl
  · intro pname hpn htrim hte hbpe hbpp hins
    simp [mainExitCode, hpn, htrim, hte, hbpe, hbpp, hins]

def cexCliC9 : CliEnv :=
  { projectName := some "demo", targetExists := false, basePackageExists := true,
    basePkgParses := true, auth := true, swagger := false,
    swaggerPkgExists := false, swaggerPkgParses := true,
    authModuleExists := true, authPkgExists := true, authPkgParses := false,
    installSucceeds := true }

/-- C9 counterexample: the auth module is selected, its `package.json`
fragment exists but fails to parse — the failure is only logged
(bin/index.js lines 311-316) — and the run still exits 0, not 1 as the
claim requires. -/
theorem main_exit_codes_counterexample :
    cexCliC9.auth = true ∧ cexCliC9.authPkgExists = true ∧
    cexCliC9.authPkgParses = false ∧ mainExitCode cexCliC9 = 0 :=
  ⟨rfl, rfl, rfl, rfl⟩

def witCliFailC9 : CliEnv :=
  { projectName := some "demo", targetExists := true, basePackageExists := true,
    basePkgParses := true, auth := false, swagger := false,
    swaggerPkgExists := false, swaggerPkgParses := true,
    authModuleExists := false, authPkgExists := false, authPkgParses := true,
    installSucceeds := true }

def witCliOkC9 : CliEnv :=
  { projectName := some "demo", targetExists := false, basePackageExists := true,
    basePkgParses := true, auth := false, swagger := false,
    swaggerPkgExists := false, swaggerPkgParses := true,
    authModuleExists := false, authPkgExists := false, authPkgParses := true,
    installSucceeds := true }

/-- Witness for C9: an existing target folder exits 1; a clean run exits 0. -/
theorem main_exit_codes_witness :
    mainExitCode witCliFailC9 = 1 ∧ mainExitCode witCliOkC9 = 0 :=
  ⟨(main_exit_codes witCliFailC9).2.2.1 rfl,
   (main_exit_codes witCliOkC9).2.2.2.2.2.2 "demo" rfl (by decide) rfl rfl rfl rfl⟩
